import Mathlib

/-!
Verification of the metrics transformation engine of `metrics-server-prom`
(`src/data/src/transform.py`): the tolerant JSON decoder `json2dict`, the unit
normalizer `val2base`, and the two exposition renderers `trans_node_metrics`
and `trans_pod_metrics`.  The Python code is embedded shallowly: JSON values
become an inductive type, Python exceptions become an `Except` error channel,
and the regular-expression matches of `val2base` become explicit string
matchers that model the semantics of `re.search` with anchors `^`/`$` and
`re.IGNORECASE` as used in the source.
-/

/-- A decoded JSON value, as produced by the model of `json.loads`.  Numbers
are restricted to integers: the repository feeds Kubernetes metrics payloads
whose numeric fields are integral, and no claim exercises float literals.
Objects keep their member list in source order; duplicate keys may occur, and
lookup takes the last binding, as a Python dict built by `json.loads` would. -/
inductive Json where
  | null : Json
  | bool (b : Bool) : Json
  | num (n : Int) : Json
  | str (s : String) : Json
  | arr (elems : List Json) : Json
  | obj (members : List (String × Json)) : Json

/-- The Python exceptions the engine can actually raise: `AttributeError`
(calling `.get` on a non-dict) and `TypeError` (iterating a non-iterable,
calling `re.search` on a non-string, or adding `int` to `str`). -/
inductive PyErr where
  | attributeError : PyErr
  | typeError : PyErr
deriving DecidableEq, Repr

/-- The result type of `val2base`: a Python `int` or the original string.
All integers produced by `val2base` are products of non-negative parses,
hence a `Nat`. -/
inductive Val where
  | int (n : Nat) : Val
  | str (s : String) : Val
deriving DecidableEq, Repr

/-- Last binding of `key` in a member list: a Python dict built from a JSON
object text stores, for each repeated key, the value written last. -/
def lookupLast (members : List (String × Json)) (key : String) : Option Json :=
  match members with
  | [] => none
  | (k, v) :: rest =>
      match lookupLast rest key with
      | some w => some w
      | none => if k = key then some v else none

/-- Model of the Python expression `x.get(key, dflt)`: defined for dicts,
an `AttributeError` on every other value (`list`, `str`, `int`, `bool`,
`None` have no `get` method). -/
def pyGet (x : Json) (key : String) (dflt : Json) : Except PyErr Json :=
  match x with
  | .obj members =>
      match lookupLast members key with
      | some v => .ok v
      | none => .ok dflt
  | _ => .error .attributeError

/-- Model of Python iteration `for v in x`: lists yield their elements,
strings yield their characters as one-character strings, dicts yield their
keys in member order; `None`, booleans and numbers are not iterable and
raise a `TypeError`. -/
def pyIter (x : Json) : Except PyErr (List Json) :=
  match x with
  | .arr elems => .ok elems
  | .str s => .ok (s.data.map (fun c => Json.str (String.mk [c])))
  | .obj members => .ok (members.map (fun kv => Json.str kv.1))
  | _ => .error .typeError

/-- Decimal digit character for a value below ten. -/
def digitChar (n : Nat) : Char :=
  match n with
  | 0 => '0'
  | 1 => '1'
  | 2 => '2'
  | 3 => '3'
  | 4 => '4'
  | 5 => '5'
  | 6 => '6'
  | 7 => '7'
  | 8 => '8'
  | _ => '9'

/-- Fuel-bounded digit expansion: one digit per recursion step, least
significant digit last.  The fuel bounds the number of digits; `natDecimal`
passes `n + 1`, which always suffices. -/
def natDecimalAux : Nat → Nat → List Char
  | 0, _ => []
  | fuel + 1, n =>
      if n < 10 then [digitChar n]
      else natDecimalAux fuel (n / 10) ++ [digitChar (n % 10)]

/-- Decimal rendering of a natural number, modelling Python `str(int)` for
non-negative ints: most significant digit first, no sign, no padding. -/
def natDecimal (n : Nat) : List Char :=
  natDecimalAux (n + 1) n

mutual

/-- Model of Python `repr` on decoded JSON values, used only when `str` is
applied to a container.  String quoting is modelled with the default single
quotes and the escapes for backslash, quote, newline, carriage return and
tab; the hex escapes Python uses for other non-printable characters are
outside this model (no claim evaluates `repr` on such data). -/
def pyRepr : Json → String
  | .null => "None"
  | .bool true => "True"
  | .bool false => "False"
  | .num n => toString n
  | .str s => "\x27" ++ String.mk (pyReprStr s.data) ++ "\x27"
  | .arr elems => "[" ++ pyReprList elems ++ "]"
  | .obj members => "\x7b" ++ pyReprMembers members ++ "\x7d"

/-- Escaped body of a single-quoted Python string repr. -/
def pyReprStr : List Char → List Char
  | [] => []
  | c :: rest =>
      (if c = '\\' then ['\\', '\\']
       else if c = '\x27' then ['\\', '\x27']
       else if c = '\n' then ['\\', 'n']
       else if c = '\r' then ['\\', 'r']
       else if c = '\t' then ['\\', 't']
       else [c]) ++ pyReprStr rest

/-- Comma-separated reprs of list elements. -/
def pyReprList : List Json → String
  | [] => ""
  | [x] => pyRepr x
  | x :: xs => pyRepr x ++ ", " ++ pyReprList xs

/-- Comma-separated reprs of dict members. -/
def pyReprMembers : List (String × Json) → String
  | [] => ""
  | [(k, v)] => pyRepr (Json.str k) ++ ": " ++ pyRepr v
  | (k, v) :: xs => pyRepr (Json.str k) ++ ": " ++ pyRepr v ++ ", " ++ pyReprMembers xs

end

/-- Model of Python `str` applied to a decoded JSON value, as `str.format`
does for each template argument: strings pass through unchanged, `None` and
booleans print their Python names, integers print in decimal, containers
print their repr. -/
def pyStr (x : Json) : String :=
  match x with
  | .str s => s
  | .num n => toString n
  | .null => "None"
  | .bool true => "True"
  | .bool false => "False"
  | .arr elems => pyRepr (Json.arr elems)
  | .obj members => pyRepr (Json.obj members)

/-- Rendering of a `val2base` result by `str.format`: ints in decimal via
the decimal model, strings unchanged. -/
def valStr (v : Val) : String :=
  match v with
  | .int n => String.mk (natDecimal n)
  | .str s => s

/-- JSON whitespace, as accepted between tokens by `json.loads`. -/
def isJsonWs (c : Char) : Bool :=
  c = ' ' ∨ c = '\t' ∨ c = '\n' ∨ c = '\r'

/-- Drop leading JSON whitespace. -/
def skipWs : List Char → List Char
  | [] => []
  | c :: rest => if isJsonWs c then skipWs rest else c :: rest

/-- Left brace character, written by code point. -/
def lbrace : Char := Char.ofNat 123

/-- Right brace character, written by code point. -/
def rbrace : Char := Char.ofNat 125

/-- Body of a JSON string after the opening quote: returns the decoded
content and the remainder after the closing quote.  The escapes of the JSON
grammar are handled except `\uXXXX`, which is outside this model of
`json.loads` (no claim exercises it); unescaped control characters are
rejected as the strict Python decoder does. -/
def parseStrBody : List Char → Option (List Char × List Char)
  | [] => none
  | '"' :: rest => some ([], rest)
  | '\\' :: c :: rest =>
      let esc : Option Char :=
        if c = '"' then some '"'
        else if c = '\\' then some '\\'
        else if c = '/' then some '/'
        else if c = 'b' then some (Char.ofNat 8)
        else if c = 'f' then some (Char.ofNat 12)
        else if c = 'n' then some '\n'
        else if c = 'r' then some '\r'
        else if c = 't' then some '\t'
        else none
      match esc with
      | none => none
      | some e =>
          match parseStrBody rest with
          | some (content, rem) => some (e :: content, rem)
          | none => none
  | c :: rest =>
      if c.toNat < 32 then none
      else
        match parseStrBody rest with
        | some (content, rem) => some (c :: content, rem)
        | none => none

/-- Split off the maximal leading run of ASCII decimal digits. -/
def takeDigits : List Char → List Char × List Char
  | [] => ([], [])
  | c :: rest =>
      if c.isDigit then
        let (ds, rem) := takeDigits rest
        (c :: ds, rem)
      else ([], c :: rest)

/-- Value of a list of decimal digits, most significant first: the model of
Python `int` applied to a non-empty string of digits. -/
def digitsVal (ds : List Char) : Nat :=
  ds.foldl (fun acc c => 10 * acc + (c.toNat - 48)) 0

/-- Unsigned JSON integer token: digits without a redundant leading zero,
not followed by a fraction or exponent marker.  Float literals are outside
this model of `json.loads` (no claim exercises them), so they make the whole
parse fail rather than produce a number. -/
def parseNatTok (cs : List Char) : Option (Nat × List Char) :=
  match takeDigits cs with
  | ([], _) => none
  | (d :: ds, rem) =>
      if d = '0' ∧ ds ≠ [] then none
      else
        match rem with
        | c :: _ =>
            if c = '.' ∨ c = 'e' ∨ c = 'E' then none
            else some (digitsVal (d :: ds), rem)
        | [] => some (digitsVal (d :: ds), rem)

/-- JSON integer token with optional leading minus sign. -/
def parseIntTok (cs : List Char) : Option (Int × List Char) :=
  match cs with
  | '-' :: rest =>
      match parseNatTok rest with
      | some (n, rem) => some (-(n : Int), rem)
      | none => none
  | _ =>
      match parseNatTok cs with
      | some (n, rem) => some ((n : Int), rem)
      | none => none

mutual

/-- One JSON value, fuel-bounded recursive descent modelling `json.loads`:
leading whitespace, then a literal, string, number, array or object. -/
def parseValue : Nat → List Char → Option (Json × List Char)
  | 0, _ => none
  | fuel + 1, cs =>
      match skipWs cs with
      | 'n' :: 'u' :: 'l' :: 'l' :: rest => some (Json.null, rest)
      | 't' :: 'r' :: 'u' :: 'e' :: rest => some (Json.bool true, rest)
      | 'f' :: 'a' :: 'l' :: 's' :: 'e' :: rest => some (Json.bool false, rest)
      | '"' :: rest =>
          match parseStrBody rest with
          | some (content, rem) => some (Json.str (String.mk content), rem)
          | none => none
      | '[' :: rest =>
          (match skipWs rest with
           | ']' :: rem => some (Json.arr [], rem)
           | _ =>
               match parseElems fuel rest with
               | some (elems, rem) => some (Json.arr elems, rem)
               | none => none)
      | c :: rest =>
          if c = lbrace then
            match skipWs rest with
            | c2 :: rem =>
                if c2 = rbrace then some (Json.obj [], rem)
                else
                  match parseMembers fuel rest with
                  | some (members, rem2) => some (Json.obj members, rem2)
                  | none => none
            | [] => none
          else
            match parseIntTok (c :: rest) with
            | some (n, rem) => some (Json.num n, rem)
            | none => none
      | [] => none

/-- Comma-separated array elements up to the closing bracket. -/
def parseElems : Nat → List Char → Option (List Json × List Char)
  | 0, _ => none
  | fuel + 1, cs =>
      match parseValue fuel cs with
      | none => none
      | some (v, rem) =>
          match skipWs rem with
          | ',' :: rem2 =>
              match parseElems fuel rem2 with
              | some (elems, rem3) => some (v :: elems, rem3)
              | none => none
          | ']' :: rem2 => some ([v], rem2)
          | _ => none

/-- Comma-separated object members up to the closing brace. -/
def parseMembers : Nat → List Char → Option (List (String × Json) × List Char)
  | 0, _ => none
  | fuel + 1, cs =>
      match skipWs cs with
      | '"' :: rest =>
          match parseStrBody rest with
          | none => none
          | some (key, rem) =>
              match skipWs rem with
              | ':' :: rem2 =>
                  match parseValue fuel rem2 with
                  | none => none
                  | some (v, rem3) =>
                      match skipWs rem3 with
                      | ',' :: rem4 =>
                          match parseMembers fuel rem4 with
                          | some (members, rem5) =>
                              some ((String.mk key, v) :: members, rem5)
                          | none => none
                      | c :: rem4 =>
                          if c = rbrace then some ([(String.mk key, v)], rem4)
                          else none
                      | [] => none
              | _ => none
      | _ => none

end

/-- Model of `json.loads` on a whole document: one value, surrounding
whitespace, and nothing after it (Python raises on trailing data).  `none`
stands for the `ValueError` the Python decoder raises. -/
def jsonParse (s : String) : Option Json :=
  match parseValue (s.length + 1) s.data with
  | some (v, rest) => if skipWs rest = [] then some v else none
  | none => none

/-- `json2dict` from `transform.py`: initialize the result to the empty
dict, attempt `json.loads`, swallow the `ValueError` on failure, and return
whatever is bound — the parsed value on success (whatever its type), the
empty dict otherwise. -/
def json2dict (s : String) : Json :=
  match jsonParse s with
  | some v => v
  | none => Json.obj []

/-- Core of the anchored suffix patterns of `val2base`: the character list
must be a non-empty run of ASCII digits (`[0-9]+`, the captured group)
followed exactly by `suffix`, compared case-insensitively.  Case folding is
ASCII `Char.toLower`; the few extra Unicode compatibility foldings of the
Python `re` module (such as the Kelvin sign) are outside this model, and no
claim exercises them. -/
def matchSuffixCore (suffix : List Char) (cs : List Char) : Option Nat :=
  let (ds, rest) := takeDigits cs
  if ds ≠ [] ∧ rest.map Char.toLower = suffix then some (digitsVal ds) else none

/-- Model of the `$` anchor of the Python `re` module: a match may end at
the very end of the string or just before a single final newline, so the
effective subject of an anchored `^...$` pattern whose body cannot contain a
newline is the string with at most one trailing newline removed. -/
def stripDollar (cs : List Char) : List Char :=
  if cs.getLast? = some '\n' then cs.dropLast else cs

/-- `re.search('^([0-9]+)Ki$', s, re.IGNORECASE)` of `val2base`, returning
the value of the captured digit group. -/
def matchKi (s : String) : Option Nat :=
  matchSuffixCore ['k', 'i'] (stripDollar s.data)

/-- `re.search('^([0-9]+)Mi$', s, re.IGNORECASE)` of `val2base`. -/
def matchMi (s : String) : Option Nat :=
  matchSuffixCore ['m', 'i'] (stripDollar s.data)

/-- `re.search('^([0-9]+)Gi$', s, re.IGNORECASE)` of `val2base`. -/
def matchGi (s : String) : Option Nat :=
  matchSuffixCore ['g', 'i'] (stripDollar s.data)

/-- `re.search('^([0-9]+)m$', s, re.IGNORECASE)` of `val2base`. -/
def matchM (s : String) : Option Nat :=
  matchSuffixCore ['m'] (stripDollar s.data)

/-- Core of `^([0-9]+)m([0-9]+)s$`: digits, an `m`, digits, an `s`, spanning
the whole list; returns the first captured group as its integer value and
the second captured group as the character list the Python code would hand
to `+` while it is still a string. -/
def matchMSCore (cs : List Char) : Option (Nat × List Char) :=
  let (ds1, rest1) := takeDigits cs
  match rest1 with
  | c :: rest2 =>
      if ds1 ≠ [] ∧ c.toLower = 'm' then
        let (ds2, rest3) := takeDigits rest2
        match rest3 with
        | [c2] => if ds2 ≠ [] ∧ c2.toLower = 's' then some (digitsVal ds1, ds2) else none
        | _ => none
      else none
  | [] => none

/-- `re.search('^([0-9]+)m([0-9]+)s$', s, re.IGNORECASE)` of `val2base`. -/
def matchMS (s : String) : Option (Nat × List Char) :=
  matchMSCore (stripDollar s.data)

/-- `val2base` from `transform.py`, on a string argument: the five anchored
case-insensitive patterns are tried in source order — `Ki`, `Mi`, `Gi`,
`m..s`, `m` — and the first match decides.  The `m..s` branch evaluates
`int(val.group(1))*60 + val.group(2)`, an addition of an `int` and a `str`,
which raises a `TypeError` in Python; every other branch multiplies the
parsed group by its unit.  A string matching no pattern is returned
unchanged. -/
def val2base (s : String) : Except PyErr Val :=
  match matchKi s with
  | some n => .ok (.int (n * 1024))
  | none =>
      match matchMi s with
      | some n => .ok (.int (n * (1024 * 1024)))
      | none =>
          match matchGi s with
          | some n => .ok (.int (n * (1024 * 1024 * 1024)))
          | none =>
              match matchMS s with
              | some _ => .error .typeError
              | none =>
                  match matchM s with
                  | some n => .ok (.int (n * 60))
                  | none => .ok (.str s)

/-- `val2base` as the renderers invoke it, on an extracted JSON value:
`re.search` demands a string or bytes-like subject, so a non-string
argument raises a `TypeError` at the first pattern. -/
def val2baseJson (v : Json) : Except PyErr Val :=
  match v with
  | .str s => val2base s
  | _ => .error .typeError

/-- The two fixed header lines of the node cpu family. -/
def nodeCpuHeader : List String :=
  ["# HELP kube_metrics_server_node_cpu The CPU time of a node in seconds.",
   "# TYPE kube_metrics_server_node_cpu gauge"]

/-- The two fixed header lines of the node mem family. -/
def nodeMemHeader : List String :=
  ["# HELP kube_metrics_server_node_mem The memory of a node in Bytes.",
   "# TYPE kube_metrics_server_node_mem gauge"]

/-- The data one iteration of the node loop extracts: the four label values,
the two raw usage values, and their normalizations. -/
structure NodeRow where
  node : Json
  created : Json
  timestamp : Json
  window : Json
  cpuRaw : Json
  memRaw : Json
  cpuVal : Val
  memVal : Val

/-- One iteration of the node loop of `trans_node_metrics`, in evaluation
order: the `lbl` dict entries (`metadata.name`, `metadata.creationTimestamp`,
`timestamp`, `window`), the `val` dict entries (`usage.cpu`,
`usage.memory`), then the two `val2base` calls of the `append` lines.  The
defaults mirror the source exactly: the intermediate defaults are the empty
list `[]` (whose `get` attribute does not exist), the leaf defaults the
empty string. -/
def nodeRowOf (node : Json) : Except PyErr NodeRow := do
  let meta ← pyGet node "metadata" (Json.arr [])
  let name ← pyGet meta "name" (Json.str "")
  let created ← pyGet meta "creationTimestamp" (Json.str "")
  let timestamp ← pyGet node "timestamp" (Json.str "")
  let window ← pyGet node "window" (Json.str "")
  let usage ← pyGet node "usage" (Json.arr [])
  let cpuRaw ← pyGet usage "cpu" (Json.str "")
  let memRaw ← pyGet usage "memory" (Json.str "")
  let cpuVal ← val2baseJson cpuRaw
  let memVal ← val2baseJson memRaw
  return ⟨name, created, timestamp, window, cpuRaw, memRaw, cpuVal, memVal⟩

/-- The node series line template
`kube_metrics_server_node_{}{{node="{}",created="{}",timestamp="{}",window="{}",debugval="{}"}} {}`
instantiated by `str.format`: each argument is rendered by `str`. -/
def nodeLine (metric : String) (node created timestamp window debugval : Json) (v : Val) :
    String :=
  "kube_metrics_server_node_" ++ metric ++ "\x7bnode=\"" ++ pyStr node ++ "\",created=\"" ++
    pyStr created ++ "\",timestamp=\"" ++ pyStr timestamp ++ "\",window=\"" ++ pyStr window ++
    "\",debugval=\"" ++ pyStr debugval ++ "\"\x7d " ++ valStr v

/-- The cpu series line appended for one node. -/
def nodeCpuLine (r : NodeRow) : String :=
  nodeLine "cpu" r.node r.created r.timestamp r.window r.cpuRaw r.cpuVal

/-- The mem series line appended for one node. -/
def nodeMemLine (r : NodeRow) : String :=
  nodeLine "mem" r.node r.created r.timestamp r.window r.memRaw r.memVal

/-- `trans_node_metrics` from `transform.py`: decode, fetch `items` with an
empty-list default, iterate it, append one cpu and one mem line per node to
the respective family list, and join `cpu + mem` with newlines.  A raised
exception is the `Except.error` case. -/
def trans_node_metrics (s : String) : Except PyErr String :=
  match pyGet (json2dict s) "items" (Json.arr []) with
  | .error e => .error e
  | .ok items =>
      match pyIter items with
      | .error e => .error e
      | .ok nodes =>
          match nodes.mapM nodeRowOf with
          | .error e => .error e
          | .ok rows =>
              .ok (String.intercalate "\n"
                (nodeCpuHeader ++ rows.map nodeCpuLine ++ nodeMemHeader ++ rows.map nodeMemLine))

/-- The two fixed header lines of the pod cpu family. -/
def podCpuHeader : List String :=
  ["# HELP kube_metrics_server_pod_cpu The CPU time of a pod in seconds.",
   "# TYPE kube_metrics_server_pod_cpu gauge"]

/-- The two fixed header lines of the pod mem family. -/
def podMemHeader : List String :=
  ["# HELP kube_metrics_server_pod_mem The memory of a pod in Bytes.",
   "# TYPE kube_metrics_server_pod_mem gauge"]

/-- The pod-level label values of one iteration of the outer pod loop. -/
structure PodLbl where
  pod : Json
  ns : Json
  created : Json
  timestamp : Json
  window : Json

/-- The data one iteration of the inner container loop extracts. -/
structure ContRow where
  cont : Json
  cpuRaw : Json
  memRaw : Json
  cpuVal : Val
  memVal : Val

/-- One pod of the outer loop: its label values and its container rows. -/
structure PodRow where
  lbl : PodLbl
  conts : List ContRow

/-- One iteration of the inner container loop of `trans_pod_metrics`, in
evaluation order: `lbl['cont']`, the `val` dict entries, then the two
`val2base` calls. -/
def contRowOf (container : Json) : Except PyErr ContRow := do
  let cont ← pyGet container "name" (Json.str "")
  let usage ← pyGet container "usage" (Json.arr [])
  let cpuRaw ← pyGet usage "cpu" (Json.str "")
  let memRaw ← pyGet usage "memory" (Json.str "")
  let cpuVal ← val2baseJson cpuRaw
  let memVal ← val2baseJson memRaw
  return ⟨cont, cpuRaw, memRaw, cpuVal, memVal⟩

/-- One iteration of the outer pod loop of `trans_pod_metrics`, in
evaluation order: the `lbl` dict entries (`metadata.name`,
`metadata.namespace`, `metadata.creationTimestamp`, `timestamp`, `window`),
then the iteration over `containers` with its empty-list default. -/
def podRowOf (pod : Json) : Except PyErr PodRow := do
  let meta ← pyGet pod "metadata" (Json.arr [])
  let name ← pyGet meta "name" (Json.str "")
  let ns ← pyGet meta "namespace" (Json.str "")
  let created ← pyGet meta "creationTimestamp" (Json.str "")
  let timestamp ← pyGet pod "timestamp" (Json.str "")
  let window ← pyGet pod "window" (Json.str "")
  let containersJ ← pyGet pod "containers" (Json.arr [])
  let containers ← pyIter containersJ
  let conts ← containers.mapM contRowOf
  return ⟨⟨name, ns, created, timestamp, window⟩, conts⟩

/-- The pod series line template
`kube_metrics_server_pod_{}{{pod="{}",container="{}",namespace="{}",created="{}",timestamp="{}",window="{}",debugval="{}"}} {}`
instantiated by `str.format`. -/
def podLine (metric : String) (l : PodLbl) (cont debugval : Json) (v : Val) : String :=
  "kube_metrics_server_pod_" ++ metric ++ "\x7bpod=\"" ++ pyStr l.pod ++ "\",container=\"" ++
    pyStr cont ++ "\",namespace=\"" ++ pyStr l.ns ++ "\",created=\"" ++ pyStr l.created ++
    "\",timestamp=\"" ++ pyStr l.timestamp ++ "\",window=\"" ++ pyStr l.window ++
    "\",debugval=\"" ++ pyStr debugval ++ "\"\x7d " ++ valStr v

/-- The cpu series line appended for one (pod, container) pair. -/
def podCpuLine (l : PodLbl) (c : ContRow) : String :=
  podLine "cpu" l c.cont c.cpuRaw c.cpuVal

/-- The mem series line appended for one (pod, container) pair. -/
def podMemLine (l : PodLbl) (c : ContRow) : String :=
  podLine "mem" l c.cont c.memRaw c.memVal

/-- `trans_pod_metrics` from `transform.py`: decode, fetch `items`, iterate
pods in the outer loop and containers in the inner loop, append one cpu and
one mem line per (pod, container) pair, and join `cpu + mem` with
newlines. -/
def trans_pod_metrics (s : String) : Except PyErr String :=
  match pyGet (json2dict s) "items" (Json.arr []) with
  | .error e => .error e
  | .ok items =>
      match pyIter items with
      | .error e => .error e
      | .ok pods =>
          match pods.mapM podRowOf with
          | .error e => .error e
          | .ok rows =>
              .ok (String.intercalate "\n"
                (podCpuHeader ++ (rows.map (fun r => r.conts.map (podCpuLine r.lbl))).flatten ++
                  podMemHeader ++ (rows.map (fun r => r.conts.map (podMemLine r.lbl))).flatten))

/-- Modelled from the spec words of the normalization contract: the `Ki`
pattern "matching the entire string (anchored at both ends)", applied to
the whole character sequence with no allowance for a trailing newline.
This is the comparison point for the claim that a pattern applies only when
it matches the entire input. -/
def entireKi (s : String) : Option Nat :=
  matchSuffixCore ['k', 'i'] s.data

/-- Modelled from the spec words: the `Mi` pattern over the entire string. -/
def entireMi (s : String) : Option Nat :=
  matchSuffixCore ['m', 'i'] s.data

/-- Modelled from the spec words: the `Gi` pattern over the entire string. -/
def entireGi (s : String) : Option Nat :=
  matchSuffixCore ['g', 'i'] s.data

/-- Modelled from the spec words: the `m` pattern over the entire string. -/
def entireM (s : String) : Option Nat :=
  matchSuffixCore ['m'] s.data

/-- Modelled from the spec words: the `m..s` pattern over the entire
string. -/
def entireMS (s : String) : Option (Nat × List Char) :=
  matchMSCore s.data

/-- First character class of a Prometheus metric name: `[a-zA-Z_:]`. -/
def isMetricNameStart (c : Char) : Bool :=
  c.isAlpha || c = '_' || c = ':'

/-- Subsequent character class of a Prometheus metric name:
`[a-zA-Z0-9_:]`. -/
def isMetricNameChar (c : Char) : Bool :=
  c.isAlpha || c.isDigit || c = '_' || c = ':'

/-- First character class of a Prometheus label name: `[a-zA-Z_]`. -/
def isLabelNameStart (c : Char) : Bool :=
  c.isAlpha || c = '_'

/-- Subsequent character class of a Prometheus label name:
`[a-zA-Z0-9_]`. -/
def isLabelNameChar (c : Char) : Bool :=
  c.isAlpha || c.isDigit || c = '_'

/-- Split off the maximal leading run of characters satisfying `p`. -/
def spanP (p : Char → Bool) : List Char → List Char × List Char
  | [] => ([], [])
  | c :: rest =>
      if p c then
        let (xs, ys) := spanP p rest
        (c :: xs, ys)
      else ([], c :: rest)

/-- Scan the body of a quoted label value up to its closing quote, per the
Prometheus text exposition grammar: a double quote, a backslash and a line
feed must appear escaped as `\"`, `\\` and `\n`; every other character
stands for itself.  Returns the remainder after the closing quote. -/
def scanLabelValue : List Char → Option (List Char)
  | [] => none
  | c :: rest =>
      if c = '"' then some rest
      else if c = '\\' then
        match rest with
        | c2 :: rest2 =>
            if c2 = '\\' ∨ c2 = '"' ∨ c2 = 'n' then scanLabelValue rest2 else none
        | [] => none
      else if c = '\n' then none
      else scanLabelValue rest

/-- Scan a non-empty comma-separated sequence of `name="value"` label pairs
followed by a closing brace, fuel-bounded by the number of pairs; returns
the remainder after the closing brace. -/
def scanPairs : Nat → List Char → Option (List Char)
  | 0, _ => none
  | fuel + 1, cs =>
      match spanP isLabelNameChar cs with
      | ([], _) => none
      | (c0 :: _, rest) =>
          if isLabelNameStart c0 then
            match rest with
            | c1 :: c2 :: rest2 =>
                if c1 = '=' ∧ c2 = '"' then
                  match scanLabelValue rest2 with
                  | some rest3 =>
                      match rest3 with
                      | c3 :: rest4 =>
                          if c3 = ',' then scanPairs fuel rest4
                          else if c3 = rbrace then some rest4
                          else none
                      | [] => none
                  | none => none
                else none
            | _ => none
          else none

/-- Exponent suffix of a float token after the `e`/`E` marker: an optional
sign and a non-empty run of digits reaching the end. -/
def expTail (cs : List Char) : Bool :=
  let cs2 :=
    match cs with
    | c :: rest => if c = '+' ∨ c = '-' then rest else cs
    | [] => cs
  match spanP Char.isDigit cs2 with
  | (ds, rem) => !ds.isEmpty && rem.isEmpty

/-- Unsigned numeric float token as Go `strconv.ParseFloat` accepts it:
digits with an optional fraction part and an optional exponent part, with
at least one digit before or after the decimal point. -/
def floatBody (cs : List Char) : Bool :=
  match spanP Char.isDigit cs with
  | (ip, r1) =>
      match r1 with
      | [] => !ip.isEmpty
      | c :: r2 =>
          if c = '.' then
            match spanP Char.isDigit r2 with
            | (fp, r3) =>
                (!ip.isEmpty || !fp.isEmpty) &&
                  (match r3 with
                   | [] => true
                   | c2 :: r4 => if c2 = 'e' ∨ c2 = 'E' then expTail r4 else false)
          else if c = 'e' ∨ c = 'E' then !ip.isEmpty && expTail r2
          else false

/-- A Prometheus sample value token: an optional sign followed by a numeric
float body or one of the case-insensitive words `Inf`, `Infinity`, `NaN`,
as Go `strconv.ParseFloat` accepts. -/
def floatTok (cs : List Char) : Bool :=
  let body :=
    match cs with
    | c :: rest => if c = '+' ∨ c = '-' then rest else cs
    | [] => cs
  (body.map Char.toLower == ['i', 'n', 'f']) ||
    (body.map Char.toLower == ['i', 'n', 'f', 'i', 'n', 'i', 't', 'y']) ||
    (body.map Char.toLower == ['n', 'a', 'n']) || floatBody body

/-- Checker for one series line of the Prometheus text exposition format as
the claim states it: a metric family name, a brace-enclosed comma-separated
sequence of quoted `key="value"` label pairs, a single space, then the
sample value. -/
def checkExpo (cs : List Char) : Bool :=
  match spanP isMetricNameChar cs with
  | ([], _) => false
  | (c0 :: _, rest) =>
      if isMetricNameStart c0 then
        match rest with
        | c :: rest2 =>
            if c = lbrace then
              match rest2 with
              | [] => false
              | c2 :: rest3 =>
                  if c2 = rbrace then
                    match rest3 with
                    | ' ' :: rest4 => floatTok rest4
                    | _ => false
                  else
                    match scanPairs rest2.length rest2 with
                    | some rest4 =>
                        match rest4 with
                        | ' ' :: rest5 => floatTok rest5
                        | _ => false
                    | none => false
            else false
        | [] => false
      else false

/-- A rendered line exactly matches the series grammar of the Prometheus
text exposition format. -/
def isExpositionLine (line : String) : Bool :=
  checkExpo line.data

/-- A character that may appear verbatim (unescaped) in a quoted label
value of the exposition format: anything but a double quote, a backslash
and a line feed. -/
def cleanChar (c : Char) : Bool :=
  !(c == '"') && !(c == '\\') && !(c == '\n')

/-- A string whose characters may all appear verbatim in a quoted label
value. -/
def cleanStr (s : String) : Bool :=
  s.data.all cleanChar

/-- Rendering of a non-empty list of `(label name, label value)` character
lists in the shape the series templates produce: `k="v"` joined by
commas. -/
def renderPairs : List (List Char × List Char) → List Char
  | [] => []
  | [(k, v)] => k ++ '=' :: '"' :: v ++ ['"']
  | (k, v) :: rest => k ++ '=' :: '"' :: v ++ '"' :: ',' :: renderPairs rest


theorem data_mk (l : List Char) : (String.mk l).data = l := rfl

theorem takeDigits_eq_spanP : ∀ l : List Char, takeDigits l = spanP Char.isDigit l
  | [] => rfl
  | c :: rest => by
      unfold takeDigits spanP
      rw [takeDigits_eq_spanP rest]

theorem spanP_all (p : Char → Bool) :
    ∀ l : List Char, l.all p = true → spanP p l = (l, [])
  | [], _ => rfl
  | c :: rest, h => by
      rw [List.all_cons, Bool.and_eq_true] at h
      unfold spanP
      rw [spanP_all p rest h.2]
      simp [h.1]

theorem spanP_append (p : Char → Bool) :
    ∀ xs ys : List Char, xs.all p = true →
      (∀ c, ys.head? = some c → p c = false) → spanP p (xs ++ ys) = (xs, ys)
  | [], ys, _, hy => by
      cases ys with
      | nil => rfl
      | cons c rest =>
          have hc := hy c rfl
          unfold spanP
          simp [hc]
  | x :: xs, ys, hx, hy => by
      rw [List.all_cons, Bool.and_eq_true] at hx
      have ih := spanP_append p xs ys hx.2 hy
      show spanP p (x :: (xs ++ ys)) = (x :: xs, ys)
      unfold spanP
      rw [ih]
      simp [hx.1]

theorem takeDigits_append (ds rest : List Char) (h1 : ds.all Char.isDigit = true)
    (h2 : ∀ c, rest.head? = some c → c.isDigit = false) :
    takeDigits (ds ++ rest) = (ds, rest) := by
  rw [takeDigits_eq_spanP]
  exact spanP_append Char.isDigit ds rest h1 h2

theorem takeDigits_parts : ∀ l : List Char, (takeDigits l).1 ++ (takeDigits l).2 = l
  | [] => rfl
  | c :: rest => by
      unfold takeDigits
      rcases htd : takeDigits rest with ⟨ds, rem⟩
      have hp := takeDigits_parts rest
      rw [htd] at hp
      by_cases h : c.isDigit = true
      · simp [h, htd, hp]
      · simp [h]

theorem stripDollar_concat (l : List Char) (c : Char) (hc : ¬ c = '\n') :
    stripDollar (l ++ [c]) = l ++ [c] := by
  unfold stripDollar
  rw [List.getLast?_concat]
  simp [hc]

theorem matchSuffixCore_append (suffix ds rest : List Char) (hds : ds ≠ [])
    (h1 : ds.all Char.isDigit = true)
    (h2 : ∀ c, rest.head? = some c → c.isDigit = false) :
    matchSuffixCore suffix (ds ++ rest) =
      if rest.map Char.toLower = suffix then some (digitsVal ds) else none := by
  unfold matchSuffixCore
  rw [takeDigits_append ds rest h1 h2]
  by_cases h : rest.map Char.toLower = suffix
  · simp [h, hds]
  · simp [h]

theorem matchSuffixCore_some_facts (suffix cs : List Char) (n : Nat)
    (h : matchSuffixCore suffix cs = some n) :
    (takeDigits cs).1 ≠ [] ∧ (takeDigits cs).2.map Char.toLower = suffix := by
  unfold matchSuffixCore at h
  replace h : (if (takeDigits cs).1 ≠ [] ∧ (takeDigits cs).2.map Char.toLower = suffix then
      some (digitsVal (takeDigits cs).1) else none) = some n := h
  by_cases hcond : (takeDigits cs).1 ≠ [] ∧ (takeDigits cs).2.map Char.toLower = suffix
  · exact hcond
  · rw [if_neg hcond] at h
    simp at h

theorem matchMSCore_some_facts (cs : List Char) (p : Nat × List Char)
    (h : matchMSCore cs = some p) :
    ∃ c rest2, (takeDigits cs).2 = c :: rest2 ∧ c.toLower = 'm' ∧ 2 ≤ rest2.length := by
  unfold matchMSCore at h
  rcases htd : takeDigits cs with ⟨ds1, rest1⟩
  rw [htd] at h
  cases rest1 with
  | nil => simp at h
  | cons c rest2 =>
      replace h : (if ds1 ≠ [] ∧ c.toLower = 'm' then
          (match (takeDigits rest2).2 with
           | [c2] =>
               if (takeDigits rest2).1 ≠ [] ∧ c2.toLower = 's' then
                 some (digitsVal ds1, (takeDigits rest2).1)
               else none
           | _ => none)
        else none) = some p := h
      split_ifs at h with hc
      · rcases htd2 : (takeDigits rest2).2 with _ | ⟨c2, r3⟩
        · rw [htd2] at h
          simp at h
        · rw [htd2] at h
          cases r3 with
          | nil =>
              replace h : (if (takeDigits rest2).1 ≠ [] ∧ c2.toLower = 's' then
                  some (digitsVal ds1, (takeDigits rest2).1) else none) = some p := h
              split_ifs at h with hc2
              · refine ⟨c, rest2, rfl, hc.2, ?_⟩
                have hparts := takeDigits_parts rest2
                rw [htd2] at hparts
                have hlen := congrArg List.length hparts
                simp at hlen
                have hpos := List.length_pos.mpr hc2.1
                omega
          | cons c3 r4 =>
              replace h : (none : Option (Nat × List Char)) = some p := h
              simp at h

theorem suffix_excl (s1 s2 cs : List Char) (n m : Nat) (h12 : s1 ≠ s2)
    (h1 : matchSuffixCore s1 cs = some n) (h2 : matchSuffixCore s2 cs = some m) : False := by
  obtain ⟨_, e1⟩ := matchSuffixCore_some_facts s1 cs n h1
  obtain ⟨_, e2⟩ := matchSuffixCore_some_facts s2 cs m h2
  rw [e1] at e2
  exact h12 e2

theorem suffix_ms_excl (suffix cs : List Char) (n : Nat) (p : Nat × List Char)
    (hlen : suffix.length ≤ 2)
    (h1 : matchSuffixCore suffix cs = some n) (h2 : matchMSCore cs = some p) : False := by
  obtain ⟨_, e1⟩ := matchSuffixCore_some_facts suffix cs n h1
  obtain ⟨c, rest2, e2, _, hr⟩ := matchMSCore_some_facts cs p h2
  have hl : (takeDigits cs).2.length = suffix.length := by
    rw [← e1]
    simp
  rw [e2] at hl
  simp at hl
  omega

theorem scanLabelValue_clean :
    ∀ v rest : List Char, v.all cleanChar = true →
      scanLabelValue (v ++ '"' :: rest) = some rest
  | [], rest, _ => by
      unfold scanLabelValue
      simp
  | c :: v, rest, h => by
      rw [List.all_cons, Bool.and_eq_true] at h
      have hc := h.1
      unfold cleanChar at hc
      rw [Bool.and_eq_true, Bool.and_eq_true] at hc
      have h1 : ¬ c = '"' := by simpa using hc.1.1
      have h2 : ¬ c = '\\' := by simpa using hc.1.2
      have h3 : ¬ c = '\n' := by simpa using hc.2
      show scanLabelValue (c :: (v ++ '"' :: rest)) = some rest
      unfold scanLabelValue
      rw [if_neg h1, if_neg h2, if_neg h3]
      exact scanLabelValue_clean v rest h.2

theorem renderPairs_length_ge :
    ∀ pairs : List (List Char × List Char), pairs.length ≤ (renderPairs pairs).length
  | [] => by simp
  | [(k, v)] => by
      unfold renderPairs
      simp
      omega
  | (k, v) :: (k2, v2) :: rest => by
      have ih := renderPairs_length_ge ((k2, v2) :: rest)
      have he : renderPairs ((k, v) :: (k2, v2) :: rest)
          = k ++ '=' :: '"' :: v ++ '"' :: ',' :: renderPairs ((k2, v2) :: rest) := rfl
      rw [he]
      simp only [List.length_append, List.length_cons] at ih ⊢
      omega

theorem scanPairs_step (f : Nat) (k v tail : List Char)
    (hk1 : k ≠ []) (hk2 : k.all isLabelNameChar = true)
    (hk3 : ∀ c, k.head? = some c → isLabelNameStart c = true)
    (hv : v.all cleanChar = true) :
    scanPairs (f + 1) (k ++ '=' :: '"' :: (v ++ '"' :: tail)) =
      (match tail with
       | c3 :: rest4 =>
           if c3 = ',' then scanPairs f rest4
           else if c3 = rbrace then some rest4
           else none
       | [] => none) := by
  obtain ⟨c0, k2, rfl⟩ := List.exists_cons_of_ne_nil hk1
  have hsp := spanP_append isLabelNameChar (c0 :: k2) ('=' :: '"' :: (v ++ '"' :: tail)) hk2
    (by
      intro c hc
      simp at hc
      subst hc
      decide)
  have hstart : isLabelNameStart c0 = true := hk3 c0 rfl
  have hval := scanLabelValue_clean v tail hv
  simp only [scanPairs]
  rw [hsp]
  simp only [hstart, hval, and_self, if_true]

theorem scanPairs_renderPairs :
    ∀ (pairs : List (List Char × List Char)) (f : Nat) (rest : List Char),
      pairs ≠ [] → pairs.length ≤ f →
      (∀ q ∈ pairs, q.1 ≠ [] ∧ q.1.all isLabelNameChar = true ∧
        (∀ c, q.1.head? = some c → isLabelNameStart c = true) ∧ q.2.all cleanChar = true) →
      scanPairs f (renderPairs pairs ++ rbrace :: rest) = some rest
  | [], _, _, hne, _, _ => absurd rfl hne
  | [(k, v)], f, rest, _, hf, hq => by
      obtain ⟨hk1, hk2, hk3, hv⟩ := hq (k, v) (by simp)
      cases f with
      | zero => simp at hf
      | succ f2 =>
          have harr : renderPairs [(k, v)] ++ rbrace :: rest
              = k ++ '=' :: '"' :: (v ++ '"' :: rbrace :: rest) := by
            simp [renderPairs, List.append_assoc]
          rw [harr, scanPairs_step f2 k v (rbrace :: rest) hk1 hk2 hk3 hv]
          have h1 : ¬ rbrace = ',' := by decide
          simp [h1]
  | (k, v) :: (k2, v2) :: ps, f, rest, _, hf, hq => by
      obtain ⟨hk1, hk2, hk3, hv⟩ := hq (k, v) (by simp)
      cases f with
      | zero => simp at hf
      | succ f2 =>
          have harr : renderPairs ((k, v) :: (k2, v2) :: ps) ++ rbrace :: rest
              = k ++ '=' :: '"' ::
                  (v ++ '"' :: ',' :: (renderPairs ((k2, v2) :: ps) ++ rbrace :: rest)) := by
            have he : renderPairs ((k, v) :: (k2, v2) :: ps)
                = k ++ '=' :: '"' :: v ++ '"' :: ',' :: renderPairs ((k2, v2) :: ps) := rfl
            rw [he]
            simp [List.append_assoc]
          rw [harr, scanPairs_step f2 k v
            (',' :: (renderPairs ((k2, v2) :: ps) ++ rbrace :: rest)) hk1 hk2 hk3 hv]
          have ih := scanPairs_renderPairs ((k2, v2) :: ps) f2 rest (by simp)
            (by
              simp only [List.length_cons] at hf ⊢
              omega)
            (fun q hq2 => hq q (List.mem_cons_of_mem _ hq2))
          simp [ih]

theorem renderPairs_first (k v : List Char) (ps : List (List Char × List Char)) :
    ∃ t, renderPairs ((k, v) :: ps) = k ++ t := by
  cases ps with
  | nil => exact ⟨'=' :: '"' :: v ++ ['"'], by simp [renderPairs]⟩
  | cons q ps2 =>
      obtain ⟨k2, v2⟩ := q
      exact ⟨'=' :: '"' :: v ++ '"' :: ',' :: renderPairs ((k2, v2) :: ps2),
        by simp [renderPairs]⟩

theorem checkExpo_shape (name : List Char) (pairs : List (List Char × List Char)) (v : List Char)
    (hn1 : name ≠ []) (hn2 : name.all isMetricNameChar = true)
    (hn3 : ∀ c, name.head? = some c → isMetricNameStart c = true)
    (hp : pairs ≠ [])
    (hpairs : ∀ q ∈ pairs, q.1 ≠ [] ∧ q.1.all isLabelNameChar = true ∧
      (∀ c, q.1.head? = some c → isLabelNameStart c = true) ∧ q.2.all cleanChar = true)
    (hv : floatTok v = true) :
    checkExpo (name ++ lbrace :: (renderPairs pairs ++ rbrace :: ' ' :: v)) = true := by
  obtain ⟨c0, nm2, rfl⟩ := List.exists_cons_of_ne_nil hn1
  obtain ⟨⟨k1, v1⟩, ps, rfl⟩ : ∃ q ps, pairs = q :: ps := by
    cases pairs with
    | nil => exact absurd rfl hp
    | cons q ps => exact ⟨q, ps, rfl⟩
  obtain ⟨hk1, hk2, hk3, hv1⟩ := hpairs (k1, v1) (by simp)
  obtain ⟨d0, k12, rfl⟩ := List.exists_cons_of_ne_nil hk1
  have hd0 : isLabelNameStart d0 = true := hk3 d0 rfl
  obtain ⟨t, ht⟩ := renderPairs_first (d0 :: k12) v1 ps
  have hsp := spanP_append isMetricNameChar (c0 :: nm2)
    (lbrace :: (renderPairs ((d0 :: k12, v1) :: ps) ++ rbrace :: ' ' :: v)) hn2
    (by
      intro c hc
      simp at hc
      subst hc
      decide)
  have hstart := hn3 c0 rfl
  have hscan := scanPairs_renderPairs ((d0 :: k12, v1) :: ps)
    (renderPairs ((d0 :: k12, v1) :: ps) ++ rbrace :: ' ' :: v).length (' ' :: v) hp
    (by
      have hge := renderPairs_length_ge ((d0 :: k12, v1) :: ps)
      simp only [List.length_append, List.length_cons] at hge ⊢
      omega)
    hpairs
  have hne : ¬ d0 = rbrace := by
    intro he
    rw [he] at hd0
    exact absurd hd0 (by decide)
  have hcons : renderPairs ((d0 :: k12, v1) :: ps) ++ rbrace :: ' ' :: v
      = d0 :: (k12 ++ t ++ rbrace :: ' ' :: v) := by
    rw [ht]
    simp [List.append_assoc]
  rw [hcons] at hscan
  unfold checkExpo
  rw [hsp]
  simp only [hstart, if_true, hcons]
  simp only [hne, if_false, hscan]
  exact hv

theorem digitChar_isDigit (n : Nat) : (digitChar n).isDigit = true := by
  unfold digitChar
  split <;> decide

theorem natDecimalAux_all_digits :
    ∀ fuel n : Nat, (natDecimalAux fuel n).all Char.isDigit = true
  | 0, _ => rfl
  | fuel + 1, n => by
      unfold natDecimalAux
      split
      · simp [digitChar_isDigit]
      · simp [List.all_append, natDecimalAux_all_digits fuel (n / 10), digitChar_isDigit]

theorem natDecimal_all_digits (n : Nat) : (natDecimal n).all Char.isDigit = true :=
  natDecimalAux_all_digits (n + 1) n

theorem natDecimal_ne_nil (n : Nat) : natDecimal n ≠ [] := by
  unfold natDecimal natDecimalAux
  split
  · simp
  · simp

theorem floatTok_digits (v : List Char) (h1 : v ≠ []) (h2 : v.all Char.isDigit = true) :
    floatTok v = true := by
  obtain ⟨c, v2, rfl⟩ := List.exists_cons_of_ne_nil h1
  have hc : c.isDigit = true := by
    rw [List.all_cons, Bool.and_eq_true] at h2
    exact h2.1
  have hcp : ¬ c = '+' := by
    intro he
    rw [he] at hc
    exact absurd hc (by decide)
  have hcm : ¬ c = '-' := by
    intro he
    rw [he] at hc
    exact absurd hc (by decide)
  unfold floatTok
  simp only [hcp, hcm, or_self, if_false, false_or]
  have hbody : floatBody (c :: v2) = true := by
    unfold floatBody
    rw [spanP_all Char.isDigit (c :: v2) h2]
    simp
  simp [hbody]

theorem trans_node_metrics_shape (s : String) (out : String)
    (h : trans_node_metrics s = .ok out) :
    ∃ items nodes rows,
      pyGet (json2dict s) "items" (Json.arr []) = .ok items ∧
      pyIter items = .ok nodes ∧
      nodes.mapM nodeRowOf = .ok rows ∧
      out = String.intercalate "\n"
        (nodeCpuHeader ++ rows.map nodeCpuLine ++ nodeMemHeader ++ rows.map nodeMemLine) := by
  unfold trans_node_metrics at h
  cases hg : pyGet (json2dict s) "items" (Json.arr []) with
  | error e => rw [hg] at h; simp at h
  | ok items =>
      simp only [hg] at h
      cases hi : pyIter items with
      | error e => simp only [hi] at h; simp at h
      | ok nodes =>
          simp only [hi] at h
          cases hm : nodes.mapM nodeRowOf with
          | error e => simp only [hm] at h; simp at h
          | ok rows =>
              simp only [hm, Except.ok.injEq] at h
              exact ⟨items, nodes, rows, rfl, hi, hm, h.symm⟩

theorem trans_pod_metrics_shape (s : String) (out : String)
    (h : trans_pod_metrics s = .ok out) :
    ∃ items pods rows,
      pyGet (json2dict s) "items" (Json.arr []) = .ok items ∧
      pyIter items = .ok pods ∧
      pods.mapM podRowOf = .ok rows ∧
      out = String.intercalate "\n"
        (podCpuHeader ++ (rows.map (fun r => r.conts.map (podCpuLine r.lbl))).flatten ++
          podMemHeader ++ (rows.map (fun r => r.conts.map (podMemLine r.lbl))).flatten) := by
  unfold trans_pod_metrics at h
  cases hg : pyGet (json2dict s) "items" (Json.arr []) with
  | error e => rw [hg] at h; simp at h
  | ok items =>
      simp only [hg] at h
      cases hi : pyIter items with
      | error e => simp only [hi] at h; simp at h
      | ok pods =>
          simp only [hi] at h
          cases hm : pods.mapM podRowOf with
          | error e => simp only [hm] at h; simp at h
          | ok rows =>
              simp only [hm, Except.ok.injEq] at h
              exact ⟨items, pods, rows, rfl, hi, hm, h.symm⟩

theorem stripDollar_of_getLast (cs : List Char) (h : ¬ cs.getLast? = some '\n') :
    stripDollar cs = cs := by
  unfold stripDollar
  rw [if_neg h]

theorem matchMSCore_not_m (ds : List Char) (c : Char) (r : List Char)
    (h1 : ds.all Char.isDigit = true) (hc : c.isDigit = false) (hm : ¬ c.toLower = 'm') :
    matchMSCore (ds ++ c :: r) = none := by
  unfold matchMSCore
  rw [takeDigits_append ds (c :: r) h1 (by
    intro x hx
    simp at hx
    subst hx
    exact hc)]
  simp [hm]

theorem matchMSCore_m_end (ds : List Char) (hds : ds ≠ []) (h1 : ds.all Char.isDigit = true) :
    matchMSCore (ds ++ ['m']) = none := by
  unfold matchMSCore
  rw [takeDigits_append ds ['m'] h1 (by
    intro x hx
    simp at hx
    subst hx
    decide)]
  simp [hds, takeDigits]

theorem getLast_digits_suffix (ds tail : List Char) (c : Char)
    (h : tail.getLast? = some c) : (ds ++ tail).getLast? = some c := by
  rw [List.getLast?_append_of_ne_nil]
  · exact h
  · intro he
    rw [he] at h
    simp at h

theorem val2base_Ki (ds : List Char) (hds : ds ≠ []) (h1 : ds.all Char.isDigit = true) :
    val2base (String.mk (ds ++ ['K', 'i'])) = .ok (.int (digitsVal ds * 1024)) := by
  have hstrip : stripDollar (ds ++ ['K', 'i']) = ds ++ ['K', 'i'] :=
    stripDollar_of_getLast _ (by
      rw [getLast_digits_suffix ds ['K', 'i'] 'i' rfl]
      decide)
  have hhead : ∀ x, (['K', 'i'] : List Char).head? = some x → x.isDigit = false := by
    intro x hx
    simp at hx
    subst hx
    decide
  have hki : matchKi (String.mk (ds ++ ['K', 'i'])) = some (digitsVal ds) := by
    unfold matchKi
    rw [data_mk, hstrip, matchSuffixCore_append _ ds _ hds h1 hhead, if_pos (by decide)]
  unfold val2base
  rw [hki]

theorem val2base_Mi (ds : List Char) (hds : ds ≠ []) (h1 : ds.all Char.isDigit = true) :
    val2base (String.mk (ds ++ ['M', 'i'])) = .ok (.int (digitsVal ds * (1024 * 1024))) := by
  have hstrip : stripDollar (ds ++ ['M', 'i']) = ds ++ ['M', 'i'] :=
    stripDollar_of_getLast _ (by
      rw [getLast_digits_suffix ds ['M', 'i'] 'i' rfl]
      decide)
  have hhead : ∀ x, (['M', 'i'] : List Char).head? = some x → x.isDigit = false := by
    intro x hx
    simp at hx
    subst hx
    decide
  have hki : matchKi (String.mk (ds ++ ['M', 'i'])) = none := by
    unfold matchKi
    rw [data_mk, hstrip, matchSuffixCore_append _ ds _ hds h1 hhead, if_neg (by decide)]
  have hmi : matchMi (String.mk (ds ++ ['M', 'i'])) = some (digitsVal ds) := by
    unfold matchMi
    rw [data_mk, hstrip, matchSuffixCore_append _ ds _ hds h1 hhead, if_pos (by decide)]
  unfold val2base
  rw [hki, hmi]

theorem val2base_Gi (ds : List Char) (hds : ds ≠ []) (h1 : ds.all Char.isDigit = true) :
    val2base (String.mk (ds ++ ['G', 'i'])) = .ok (.int (digitsVal ds * (1024 * 1024 * 1024))) := by
  have hstrip : stripDollar (ds ++ ['G', 'i']) = ds ++ ['G', 'i'] :=
    stripDollar_of_getLast _ (by
      rw [getLast_digits_suffix ds ['G', 'i'] 'i' rfl]
      decide)
  have hhead : ∀ x, (['G', 'i'] : List Char).head? = some x → x.isDigit = false := by
    intro x hx
    simp at hx
    subst hx
    decide
  have hki : matchKi (String.mk (ds ++ ['G', 'i'])) = none := by
    unfold matchKi
    rw [data_mk, hstrip, matchSuffixCore_append _ ds _ hds h1 hhead, if_neg (by decide)]
  have hmi : matchMi (String.mk (ds ++ ['G', 'i'])) = none := by
    unfold matchMi
    rw [data_mk, hstrip, matchSuffixCore_append _ ds _ hds h1 hhead, if_neg (by decide)]
  have hgi : matchGi (String.mk (ds ++ ['G', 'i'])) = some (digitsVal ds) := by
    unfold matchGi
    rw [data_mk, hstrip, matchSuffixCore_append _ ds _ hds h1 hhead, if_pos (by decide)]
  unfold val2base
  rw [hki, hmi, hgi]

theorem val2base_m (ds : List Char) (hds : ds ≠ []) (h1 : ds.all Char.isDigit = true) :
    val2base (String.mk (ds ++ ['m'])) = .ok (.int (digitsVal ds * 60)) := by
  have hstrip : stripDollar (ds ++ ['m']) = ds ++ ['m'] :=
    stripDollar_of_getLast _ (by
      rw [getLast_digits_suffix ds ['m'] 'm' rfl]
      decide)
  have hhead : ∀ x, (['m'] : List Char).head? = some x → x.isDigit = false := by
    intro x hx
    simp at hx
    subst hx
    decide
  have hki : matchKi (String.mk (ds ++ ['m'])) = none := by
    unfold matchKi
    rw [data_mk, hstrip, matchSuffixCore_append _ ds _ hds h1 hhead, if_neg (by decide)]
  have hmi : matchMi (String.mk (ds ++ ['m'])) = none := by
    unfold matchMi
    rw [data_mk, hstrip, matchSuffixCore_append _ ds _ hds h1 hhead, if_neg (by decide)]
  have hgi : matchGi (String.mk (ds ++ ['m'])) = none := by
    unfold matchGi
    rw [data_mk, hstrip, matchSuffixCore_append _ ds _ hds h1 hhead, if_neg (by decide)]
  have hms : matchMS (String.mk (ds ++ ['m'])) = none := by
    unfold matchMS
    rw [data_mk, hstrip]
    exact matchMSCore_m_end ds hds h1
  have hm : matchM (String.mk (ds ++ ['m'])) = some (digitsVal ds) := by
    unfold matchM
    rw [data_mk, hstrip, matchSuffixCore_append _ ds _ hds h1 hhead, if_pos (by decide)]
  unfold val2base
  rw [hki, hmi, hgi, hms, hm]

theorem val2base_pass (s : String) (h1 : matchKi s = none) (h2 : matchMi s = none)
    (h3 : matchGi s = none) (h4 : matchMS s = none) (h5 : matchM s = none) :
    val2base s = .ok (.str s) := by
  unfold val2base
  rw [h1, h2, h3, h4, h5]

/-- C1: the claim states the engine is total on every string input.  It is
not: the code contradicts its own docstrings (`json2dict` documents a dict
result and the renderers document a string result for any valid-or-invalid
JSON input).  Evaluating the embedded code: on input `"null"` (valid JSON)
both renderers raise an `AttributeError` (`None.get`), and a node document
whose cpu usage is `"5m0s"` makes the node renderer raise the `TypeError`
of `val2base` (`int + str`); the last conjunct records that `"null"` parses
successfully, so this is not the tolerated decode-failure path. -/
theorem c1_engine_raises :
    trans_node_metrics "null" = .error .attributeError ∧
    trans_pod_metrics "null" = .error .attributeError ∧
    trans_node_metrics
        "\x7b\"items\":[\x7b\"metadata\":\x7b\x7d,\"usage\":\x7b\"cpu\":\"5m0s\"\x7d\x7d]\x7d" =
      .error .typeError ∧
    jsonParse "null" = some Json.null :=
  ⟨rfl, rfl, rfl, rfl⟩

/-- C2: the claim states that an input of the form digits `m` digits `s`
normalizes to minutes×60 + seconds, in particular `"5m0s" = 300`.  The
pattern does match `"5m0s"` (second conjunct, groups `5` and `"0"`), but
the branch computes `int(group(1))*60 + group(2)` — an `int` plus a `str` —
which raises a `TypeError`, contradicting the docstring of `val2base`
(*currently able to handle values of ... 1m0s*). -/
theorem c2_duration_typeerror :
    val2base "5m0s" = .error .typeError ∧ matchMS "5m0s" = some (5, ['0']) :=
  ⟨rfl, rfl⟩

/-- C3: the claim states `json2dict` never raises and returns an
empty-item-sequence document for `""`, `"{"`, `"not json"` and `"null"`.
It never raises (it is total by construction, the `except ValueError`
swallowing the only parse exception), and the first three inputs fail to
parse and yield the empty dict; but `"null"` parses to JSON null, which is
passed through unchanged — not a document — and the downstream item access
`data.get('items', [])` then raises an `AttributeError`, contradicting the
docstring that promises a dict result. -/
theorem c3_json2dict_eval :
    json2dict "" = Json.obj [] ∧
    json2dict "\x7b" = Json.obj [] ∧
    json2dict "not json" = Json.obj [] ∧
    json2dict "null" = Json.null ∧
    pyGet (json2dict "null") "items" (Json.arr []) = .error .attributeError :=
  ⟨rfl, rfl, rfl, rfl, rfl⟩

set_option maxRecDepth 16384 in
/-- C4: the claim states missing fields at any nesting level resolve to
empty defaults and never crash.  Missing leaf fields do (third conjunct: a
node with empty `metadata` and `usage` renders empty labels and an empty
value); but a missing intermediate `metadata` (or `usage`) dict crashes:
the fallback in `node.get('metadata', [])` is a *list*, and `list` has no
`get` attribute, so both renderers raise an `AttributeError` on an item
`{}` — the defaulting was clearly intended to make this case safe. -/
theorem c4_missing_intermediate_raises :
    trans_node_metrics "\x7b\"items\":[\x7b\x7d]\x7d" = .error .attributeError ∧
    trans_pod_metrics "\x7b\"items\":[\x7b\x7d]\x7d" = .error .attributeError ∧
    trans_node_metrics "\x7b\"items\":[\x7b\"metadata\":\x7b\x7d,\"usage\":\x7b\x7d\x7d]\x7d" =
      .ok ("# HELP kube_metrics_server_node_cpu The CPU time of a node in seconds.\n# TYPE kube_metrics_server_node_cpu gauge\nkube_metrics_server_node_cpu\x7bnode=\"\",created=\"\",timestamp=\"\",window=\"\",debugval=\"\"\x7d \n# HELP kube_metrics_server_node_mem The memory of a node in Bytes.\n# TYPE kube_metrics_server_node_mem gauge\nkube_metrics_server_node_mem\x7bnode=\"\",created=\"\",timestamp=\"\",window=\"\",debugval=\"\"\x7d ") :=
  ⟨rfl, rfl, rfl⟩

/-- C5: `val2base` maps digits`Ki` to n×1024, digits`Mi` to n×1024²,
digits`Gi` to n×1024³ and digits`m` to n×60 (first conjunct, for every
non-empty digit group), returns any string matched by none of the five
patterns unchanged (second conjunct), and on the concrete examples gives
`15Ki = 15360`, `1Mi = 1048576`, `1Gi = 1073741824`, `5m = 300`,
`abc = "abc"` and `"" = ""`. -/
theorem c5_normalize_families :
    (∀ ds : List Char, ds ≠ [] → ds.all Char.isDigit = true →
      val2base (String.mk (ds ++ ['K', 'i'])) = .ok (.int (digitsVal ds * 1024)) ∧
      val2base (String.mk (ds ++ ['M', 'i'])) = .ok (.int (digitsVal ds * (1024 * 1024))) ∧
      val2base (String.mk (ds ++ ['G', 'i'])) = .ok (.int (digitsVal ds * (1024 * 1024 * 1024))) ∧
      val2base (String.mk (ds ++ ['m'])) = .ok (.int (digitsVal ds * 60))) ∧
    (∀ s : String, matchKi s = none → matchMi s = none → matchGi s = none →
      matchMS s = none → matchM s = none → val2base s = .ok (.str s)) ∧
    val2base "15Ki" = .ok (.int 15360) ∧
    val2base "1Mi" = .ok (.int 1048576) ∧
    val2base "1Gi" = .ok (.int 1073741824) ∧
    val2base "5m" = .ok (.int 300) ∧
    val2base "abc" = .ok (.str "abc") ∧
    val2base "" = .ok (.str "") :=
  ⟨fun ds h1 h2 =>
      ⟨val2base_Ki ds h1 h2, val2base_Mi ds h1 h2, val2base_Gi ds h1 h2, val2base_m ds h1 h2⟩,
    fun s a b c d e => val2base_pass s a b c d e,
    rfl, rfl, rfl, rfl, rfl, rfl⟩

/-- C5 witness: the family part instantiated at the digit group `25`
(`"25Ki"` normalizes to 25600) and the pass-through part at `"n0pe"`. -/
theorem c5_normalize_families_witness :
    ((['2', '5'] : List Char) ≠ [] ∧ (['2', '5'] : List Char).all Char.isDigit = true ∧
      matchKi "n0pe" = none) ∧
    val2base (String.mk (['2', '5'] ++ ['K', 'i'])) = .ok (.int (digitsVal ['2', '5'] * 1024)) ∧
    val2base "n0pe" = .ok (.str "n0pe") :=
  ⟨⟨by decide, by decide, rfl⟩,
    (c5_normalize_families.1 ['2', '5'] (by decide) (by decide)).1,
    c5_normalize_families.2.1 "n0pe" rfl rfl rfl rfl rfl⟩

/-- C10: the claim states `json2dict` returns the empty dict *only* when
parsing raises a `ValueError`.  The input `"{}"` refutes that direction: it
parses successfully to the empty JSON object, which is returned unchanged
and is the empty dict. -/
theorem c10_empty_obj_counterexample :
    jsonParse "\x7b\x7d" = some (Json.obj []) ∧ json2dict "\x7b\x7d" = Json.obj [] :=
  ⟨rfl, rfl⟩

/-- C10 amended: `json2dict` returns the parsed value unchanged, whatever
its type, for every input that parses as valid JSON (None for `"null"`, a
list for `"[]"`, a number for `"123"`), and returns the empty dict exactly
on parse failure or when the payload itself is the empty JSON object. -/
theorem c10_passthrough :
    (∀ s v, jsonParse s = some v → json2dict s = v) ∧
    (∀ s, jsonParse s = none → json2dict s = Json.obj []) ∧
    json2dict "null" = Json.null ∧
    json2dict "[]" = Json.arr [] ∧
    json2dict "123" = Json.num 123 := by
  refine ⟨?_, ?_, rfl, rfl, rfl⟩
  · intro s v h
    unfold json2dict
    rw [h]
  · intro s h
    unfold json2dict
    rw [h]

/-- C10 witness: the pass-through applied at `"[7]"`. -/
theorem c10_passthrough_witness :
    jsonParse "[7]" = some (Json.arr [Json.num 7]) ∧ json2dict "[7]" = Json.arr [Json.num 7] :=
  ⟨rfl, c10_passthrough.1 "[7]" (Json.arr [Json.num 7]) rfl⟩

/-- C6 counterexample: the claim states a pattern applies only when it
matches the entire input string.  On `"15Ki\n"` the `Ki` pattern applies —
`val2base` returns 15360 and the embedded `re.search` model matches —
although the pattern over the entire string (the spec-worded `entireKi`)
does not match, because the `$` anchor of the Python `re` module also
matches just before a single trailing newline. -/
theorem c6_entire_match_counterexample :
    val2base "15Ki\n" = .ok (.int 15360) ∧
    matchKi "15Ki\n" = some 15 ∧
    entireKi "15Ki\n" = none :=
  ⟨rfl, rfl, rfl⟩

/-- C6 amended: each of the five patterns applies exactly when it matches
the entire input up to at most one trailing newline (second conjunct: each
matcher equals its whole-string version applied to the input with the `$`
allowance stripped), and the patterns are mutually exclusive — for every
input string at most one of the five matches (first conjunct, all ten
pairs). -/
theorem c6_amended_exclusive_anchored :
    (∀ s : String,
      (matchKi s = none ∨
        (matchMi s = none ∧ matchGi s = none ∧ matchMS s = none ∧ matchM s = none)) ∧
      (matchMi s = none ∨ (matchGi s = none ∧ matchMS s = none ∧ matchM s = none)) ∧
      (matchGi s = none ∨ (matchMS s = none ∧ matchM s = none)) ∧
      (matchMS s = none ∨ matchM s = none)) ∧
    (∀ s : String,
      matchKi s = entireKi (String.mk (stripDollar s.data)) ∧
      matchMi s = entireMi (String.mk (stripDollar s.data)) ∧
      matchGi s = entireGi (String.mk (stripDollar s.data)) ∧
      matchMS s = entireMS (String.mk (stripDollar s.data)) ∧
      matchM s = entireM (String.mk (stripDollar s.data))) := by
  constructor
  · intro s
    refine ⟨?_, ?_, ?_, ?_⟩
    · cases hk : matchKi s with
      | none => exact Or.inl rfl
      | some n =>
          refine Or.inr ⟨?_, ?_, ?_, ?_⟩
          · cases hx : matchMi s with
            | none => rfl
            | some m => exact (suffix_excl _ _ _ n m (by decide) hk hx).elim
          · cases hx : matchGi s with
            | none => rfl
            | some m => exact (suffix_excl _ _ _ n m (by decide) hk hx).elim
          · cases hx : matchMS s with
            | none => rfl
            | some p => exact (suffix_ms_excl _ _ n p (by decide) hk hx).elim
          · cases hx : matchM s with
            | none => rfl
            | some m => exact (suffix_excl _ _ _ n m (by decide) hk hx).elim
    · cases hk : matchMi s with
      | none => exact Or.inl rfl
      | some n =>
          refine Or.inr ⟨?_, ?_, ?_⟩
          · cases hx : matchGi s with
            | none => rfl
            | some m => exact (suffix_excl _ _ _ n m (by decide) hk hx).elim
          · cases hx : matchMS s with
            | none => rfl
            | some p => exact (suffix_ms_excl _ _ n p (by decide) hk hx).elim
          · cases hx : matchM s with
            | none => rfl
            | some m => exact (suffix_excl _ _ _ n m (by decide) hk hx).elim
    · cases hk : matchGi s with
      | none => exact Or.inl rfl
      | some n =>
          refine Or.inr ⟨?_, ?_⟩
          · cases hx : matchMS s with
            | none => rfl
            | some p => exact (suffix_ms_excl _ _ n p (by decide) hk hx).elim
          · cases hx : matchM s with
            | none => rfl
            | some m => exact (suffix_excl _ _ _ n m (by decide) hk hx).elim
    · cases hk : matchMS s with
      | none => exact Or.inl rfl
      | some p =>
          refine Or.inr ?_
          cases hx : matchM s with
          | none => rfl
          | some m => exact (suffix_ms_excl _ _ m p (by decide) hx hk).elim
  · intro s
    exact ⟨rfl, rfl, rfl, rfl, rfl⟩

/-- C8: for every input on which a renderer returns, the output is the
newline join of the cpu HELP and TYPE headers, then the cpu series lines of
the decoded items in document order, then the mem headers, then the mem
series lines in the same order — so headers precede their series lines and
the whole cpu family precedes the whole mem family, for the node renderer
(first conjunct) and the pod renderer (second conjunct); and on the empty
document the node renderer returns exactly the four header lines (third
conjunct). -/
theorem c8_output_structure :
    (∀ s out, trans_node_metrics s = .ok out →
      ∃ items nodes rows,
        pyGet (json2dict s) "items" (Json.arr []) = .ok items ∧
        pyIter items = .ok nodes ∧
        nodes.mapM nodeRowOf = .ok rows ∧
        out = String.intercalate "\n"
          (nodeCpuHeader ++ rows.map nodeCpuLine ++ nodeMemHeader ++ rows.map nodeMemLine)) ∧
    (∀ s out, trans_pod_metrics s = .ok out →
      ∃ items pods rows,
        pyGet (json2dict s) "items" (Json.arr []) = .ok items ∧
        pyIter items = .ok pods ∧
        pods.mapM podRowOf = .ok rows ∧
        out = String.intercalate "\n"
          (podCpuHeader ++ (rows.map (fun r => r.conts.map (podCpuLine r.lbl))).flatten ++
            podMemHeader ++ (rows.map (fun r => r.conts.map (podMemLine r.lbl))).flatten)) ∧
    trans_node_metrics "\x7b\"items\":[]\x7d" =
      .ok (String.intercalate "\n" (nodeCpuHeader ++ nodeMemHeader)) :=
  ⟨trans_node_metrics_shape, trans_pod_metrics_shape, rfl⟩

set_option maxRecDepth 32768 in
/-- C8 witness: the node structure applied to a concrete one-node document
whose output is computed literally. -/
theorem c8_output_structure_witness :
    trans_node_metrics
        "\x7b\"items\":[\x7b\"metadata\":\x7b\"name\":\"n1\",\"creationTimestamp\":\"T0\"\x7d,\"timestamp\":\"T1\",\"window\":\"30s\",\"usage\":\x7b\"cpu\":\"250m\",\"memory\":\"2048Ki\"\x7d\x7d]\x7d" =
      .ok "# HELP kube_metrics_server_node_cpu The CPU time of a node in seconds.\n# TYPE kube_metrics_server_node_cpu gauge\nkube_metrics_server_node_cpu\x7bnode=\"n1\",created=\"T0\",timestamp=\"T1\",window=\"30s\",debugval=\"250m\"\x7d 15000\n# HELP kube_metrics_server_node_mem The memory of a node in Bytes.\n# TYPE kube_metrics_server_node_mem gauge\nkube_metrics_server_node_mem\x7bnode=\"n1\",created=\"T0\",timestamp=\"T1\",window=\"30s\",debugval=\"2048Ki\"\x7d 2097152" ∧
    (∃ items nodes rows,
      pyGet (json2dict
          "\x7b\"items\":[\x7b\"metadata\":\x7b\"name\":\"n1\",\"creationTimestamp\":\"T0\"\x7d,\"timestamp\":\"T1\",\"window\":\"30s\",\"usage\":\x7b\"cpu\":\"250m\",\"memory\":\"2048Ki\"\x7d\x7d]\x7d")
        "items" (Json.arr []) = .ok items ∧
      pyIter items = .ok nodes ∧
      nodes.mapM nodeRowOf = .ok rows ∧
      "# HELP kube_metrics_server_node_cpu The CPU time of a node in seconds.\n# TYPE kube_metrics_server_node_cpu gauge\nkube_metrics_server_node_cpu\x7bnode=\"n1\",created=\"T0\",timestamp=\"T1\",window=\"30s\",debugval=\"250m\"\x7d 15000\n# HELP kube_metrics_server_node_mem The memory of a node in Bytes.\n# TYPE kube_metrics_server_node_mem gauge\nkube_metrics_server_node_mem\x7bnode=\"n1\",created=\"T0\",timestamp=\"T1\",window=\"30s\",debugval=\"2048Ki\"\x7d 2097152"
        = String.intercalate "\n"
          (nodeCpuHeader ++ rows.map nodeCpuLine ++ nodeMemHeader ++ rows.map nodeMemLine)) :=
  ⟨by rfl, c8_output_structure.1 _ _ (by rfl)⟩

set_option maxRecDepth 65536 in
/-- C9: whenever the pod renderer returns, its series lines are exactly the
flattening of the decoded pod rows — pods outer, containers inner, both in
document order, one cpu line and one mem line per (pod, container) pair
with the pod labels plus the container name (first conjunct); a concrete
document with one pod of two containers yields exactly 2 cpu and 2 mem
series lines in container order (second conjunct); and a pod with zero
containers contributes zero series lines (third conjunct: header-only
output). -/
theorem c9_pod_iteration :
    (∀ s out, trans_pod_metrics s = .ok out →
      ∃ items pods rows,
        pyGet (json2dict s) "items" (Json.arr []) = .ok items ∧
        pyIter items = .ok pods ∧
        pods.mapM podRowOf = .ok rows ∧
        out = String.intercalate "\n"
          (podCpuHeader ++ (rows.map (fun r => r.conts.map (podCpuLine r.lbl))).flatten ++
            podMemHeader ++ (rows.map (fun r => r.conts.map (podMemLine r.lbl))).flatten)) ∧
    trans_pod_metrics
        "\x7b\"items\":[\x7b\"metadata\":\x7b\"name\":\"p1\",\"namespace\":\"ns1\",\"creationTimestamp\":\"T0\"\x7d,\"timestamp\":\"T1\",\"window\":\"30s\",\"containers\":[\x7b\"name\":\"c1\",\"usage\":\x7b\"cpu\":\"5m\",\"memory\":\"1Ki\"\x7d\x7d,\x7b\"name\":\"c2\",\"usage\":\x7b\"cpu\":\"7m\",\"memory\":\"2Ki\"\x7d\x7d]\x7d]\x7d" =
      .ok "# HELP kube_metrics_server_pod_cpu The CPU time of a pod in seconds.\n# TYPE kube_metrics_server_pod_cpu gauge\nkube_metrics_server_pod_cpu\x7bpod=\"p1\",container=\"c1\",namespace=\"ns1\",created=\"T0\",timestamp=\"T1\",window=\"30s\",debugval=\"5m\"\x7d 300\nkube_metrics_server_pod_cpu\x7bpod=\"p1\",container=\"c2\",namespace=\"ns1\",created=\"T0\",timestamp=\"T1\",window=\"30s\",debugval=\"7m\"\x7d 420\n# HELP kube_metrics_server_pod_mem The memory of a pod in Bytes.\n# TYPE kube_metrics_server_pod_mem gauge\nkube_metrics_server_pod_mem\x7bpod=\"p1\",container=\"c1\",namespace=\"ns1\",created=\"T0\",timestamp=\"T1\",window=\"30s\",debugval=\"1Ki\"\x7d 1024\nkube_metrics_server_pod_mem\x7bpod=\"p1\",container=\"c2\",namespace=\"ns1\",created=\"T0\",timestamp=\"T1\",window=\"30s\",debugval=\"2Ki\"\x7d 2048" ∧
    trans_pod_metrics "\x7b\"items\":[\x7b\"metadata\":\x7b\"name\":\"p2\"\x7d\x7d]\x7d" =
      .ok (String.intercalate "\n" (podCpuHeader ++ podMemHeader)) :=
  ⟨trans_pod_metrics_shape, by rfl, by rfl⟩

set_option maxRecDepth 32768 in
/-- C9 witness: the structural part applied to the concrete zero-container
pod document. -/
theorem c9_pod_iteration_witness :
    trans_pod_metrics "\x7b\"items\":[\x7b\"metadata\":\x7b\"name\":\"p3\"\x7d\x7d]\x7d" =
      .ok (String.intercalate "\n" (podCpuHeader ++ podMemHeader)) ∧
    (∃ items pods rows,
      pyGet (json2dict "\x7b\"items\":[\x7b\"metadata\":\x7b\"name\":\"p3\"\x7d\x7d]\x7d")
        "items" (Json.arr []) = .ok items ∧
      pyIter items = .ok pods ∧
      pods.mapM podRowOf = .ok rows ∧
      String.intercalate "\n" (podCpuHeader ++ podMemHeader)
        = String.intercalate "\n"
          (podCpuHeader ++ (rows.map (fun r => r.conts.map (podCpuLine r.lbl))).flatten ++
            podMemHeader ++ (rows.map (fun r => r.conts.map (podMemLine r.lbl))).flatten)) :=
  ⟨by rfl, c9_pod_iteration.1 _ _ (by rfl)⟩

theorem keyFacts (c0 : Char) (rest : List Char)
    (h : (isLabelNameStart c0 && (c0 :: rest).all isLabelNameChar) = true) :
    (c0 :: rest : List Char) ≠ [] ∧ (c0 :: rest).all isLabelNameChar = true ∧
    (∀ x, (c0 :: rest : List Char).head? = some x → isLabelNameStart x = true) := by
  rw [Bool.and_eq_true] at h
  refine ⟨by simp, h.2, ?_⟩
  intro x hx
  simp at hx
  subst hx
  exact h.1

theorem pairFacts (key : List Char) (v : String)
    (hk : key ≠ [] ∧ key.all isLabelNameChar = true ∧
      ∀ x, key.head? = some x → isLabelNameStart x = true)
    (hv : cleanStr v = true) :
    (key, v.data).1 ≠ [] ∧ (key, v.data).1.all isLabelNameChar = true ∧
    (∀ x, (key, v.data).1.head? = some x → isLabelNameStart x = true) ∧
    (key, v.data).2.all cleanChar = true :=
  ⟨hk.1, hk.2.1, hk.2.2, hv⟩

theorem nodeLine_grammar (metric a b c d e : String) (k : Nat)
    (hm : metric.data.all isMetricNameChar = true)
    (ha : cleanStr a = true) (hb : cleanStr b = true) (hc : cleanStr c = true)
    (hd : cleanStr d = true) (he : cleanStr e = true) :
    isExpositionLine (nodeLine metric (Json.str a) (Json.str b) (Json.str c) (Json.str d)
      (Json.str e) (Val.int k)) = true := by
  unfold isExpositionLine
  have hdata : (nodeLine metric (Json.str a) (Json.str b) (Json.str c) (Json.str d)
        (Json.str e) (Val.int k)).data
      = ("kube_metrics_server_node_" ++ metric).data ++ '\x7b' ::
        (renderPairs [("node".data, a.data), ("created".data, b.data),
            ("timestamp".data, c.data), ("window".data, d.data), ("debugval".data, e.data)] ++
          '\x7d' :: ' ' :: natDecimal k) := by
    simp [nodeLine, pyStr, valStr, renderPairs, String.data_append, data_mk, List.append_assoc]
  rw [hdata]
  refine checkExpo_shape _ _ _ ?_ ?_ ?_ ?_ ?_ ?_
  · simp [String.data_append]
  · simp only [String.data_append, List.all_append, Bool.and_eq_true]
    exact ⟨by decide, hm⟩
  · intro x hx
    simp [String.data_append] at hx
    subst hx
    decide
  · simp
  · intro q hq
    simp only [List.mem_cons, List.not_mem_nil, or_false] at hq
    rcases hq with rfl | rfl | rfl | rfl | rfl
    · exact pairFacts _ _ (keyFacts 'n' ['o', 'd', 'e'] (by decide)) ha
    · exact pairFacts _ _ (keyFacts 'c' ['r', 'e', 'a', 't', 'e', 'd'] (by decide)) hb
    · exact pairFacts _ _
        (keyFacts 't' ['i', 'm', 'e', 's', 't', 'a', 'm', 'p'] (by decide)) hc
    · exact pairFacts _ _ (keyFacts 'w' ['i', 'n', 'd', 'o', 'w'] (by decide)) hd
    · exact pairFacts _ _
        (keyFacts 'd' ['e', 'b', 'u', 'g', 'v', 'a', 'l'] (by decide)) he
  · exact floatTok_digits _ (natDecimal_ne_nil k) (natDecimal_all_digits k)

theorem podLine_grammar (metric a b c d e f g : String) (k : Nat)
    (hm : metric.data.all isMetricNameChar = true)
    (ha : cleanStr a = true) (hb : cleanStr b = true) (hc : cleanStr c = true)
    (hd : cleanStr d = true) (he : cleanStr e = true) (hf : cleanStr f = true)
    (hg : cleanStr g = true) :
    isExpositionLine (podLine metric
      ⟨Json.str a, Json.str b, Json.str c, Json.str d, Json.str e⟩
      (Json.str f) (Json.str g) (Val.int k)) = true := by
  unfold isExpositionLine
  have hdata : (podLine metric
        ⟨Json.str a, Json.str b, Json.str c, Json.str d, Json.str e⟩
        (Json.str f) (Json.str g) (Val.int k)).data
      = ("kube_metrics_server_pod_" ++ metric).data ++ '\x7b' ::
        (renderPairs [("pod".data, a.data), ("container".data, f.data),
            ("namespace".data, b.data), ("created".data, c.data),
            ("timestamp".data, d.data), ("window".data, e.data),
            ("debugval".data, g.data)] ++
          '\x7d' :: ' ' :: natDecimal k) := by
    simp [podLine, pyStr, valStr, renderPairs, String.data_append, data_mk, List.append_assoc]
  rw [hdata]
  refine checkExpo_shape _ _ _ ?_ ?_ ?_ ?_ ?_ ?_
  · simp [String.data_append]
  · simp only [String.data_append, List.all_append, Bool.and_eq_true]
    exact ⟨by decide, hm⟩
  · intro x hx
    simp [String.data_append] at hx
    subst hx
    decide
  · simp
  · intro q hq
    simp only [List.mem_cons, List.not_mem_nil, or_false] at hq
    rcases hq with rfl | rfl | rfl | rfl | rfl | rfl | rfl
    · exact pairFacts _ _ (keyFacts 'p' ['o', 'd'] (by decide)) ha
    · exact pairFacts _ _
        (keyFacts 'c' ['o', 'n', 't', 'a', 'i', 'n', 'e', 'r'] (by decide)) hf
    · exact pairFacts _ _
        (keyFacts 'n' ['a', 'm', 'e', 's', 'p', 'a', 'c', 'e'] (by decide)) hb
    · exact pairFacts _ _ (keyFacts 'c' ['r', 'e', 'a', 't', 'e', 'd'] (by decide)) hc
    · exact pairFacts _ _
        (keyFacts 't' ['i', 'm', 'e', 's', 't', 'a', 'm', 'p'] (by decide)) hd
    · exact pairFacts _ _ (keyFacts 'w' ['i', 'n', 'd', 'o', 'w'] (by decide)) he
    · exact pairFacts _ _
        (keyFacts 'd' ['e', 'b', 'u', 'g', 'v', 'a', 'l'] (by decide)) hg
  · exact floatTok_digits _ (natDecimal_ne_nil k) (natDecimal_all_digits k)

set_option maxRecDepth 65536 in
/-- C7 counterexample: the claim states every emitted series line matches
the Prometheus exposition grammar for every label and value content.  Two
refutations by evaluation: in a document whose node name contains a double
quote, the node renderer emits exactly the two series lines shown, and
both fail the grammar checker (the quote is embedded unescaped in the
label value); in a document whose cpu usage is the pass-through string
`"abc"`, the emitted cpu line carries the non-numeric sample value `abc`
and fails, while the mem line of the same document (value `1024`) passes —
so the checker itself is not trivially false. -/
theorem c7_grammar_counterexample :
    (trans_node_metrics
        "\x7b\"items\":[\x7b\"metadata\":\x7b\"name\":\"a\\\"b\"\x7d,\"usage\":\x7b\"cpu\":\"5m\",\"memory\":\"1Ki\"\x7d\x7d]\x7d" =
      .ok (String.intercalate "\n" (nodeCpuHeader ++
        ["kube_metrics_server_node_cpu\x7bnode=\"a\"b\",created=\"\",timestamp=\"\",window=\"\",debugval=\"5m\"\x7d 300"] ++
        nodeMemHeader ++
        ["kube_metrics_server_node_mem\x7bnode=\"a\"b\",created=\"\",timestamp=\"\",window=\"\",debugval=\"1Ki\"\x7d 1024"])) ∧
      isExpositionLine
        "kube_metrics_server_node_cpu\x7bnode=\"a\"b\",created=\"\",timestamp=\"\",window=\"\",debugval=\"5m\"\x7d 300" = false ∧
      isExpositionLine
        "kube_metrics_server_node_mem\x7bnode=\"a\"b\",created=\"\",timestamp=\"\",window=\"\",debugval=\"1Ki\"\x7d 1024" = false) ∧
    (trans_node_metrics
        "\x7b\"items\":[\x7b\"metadata\":\x7b\"name\":\"n\"\x7d,\"usage\":\x7b\"cpu\":\"abc\",\"memory\":\"1Ki\"\x7d\x7d]\x7d" =
      .ok (String.intercalate "\n" (nodeCpuHeader ++
        ["kube_metrics_server_node_cpu\x7bnode=\"n\",created=\"\",timestamp=\"\",window=\"\",debugval=\"abc\"\x7d abc"] ++
        nodeMemHeader ++
        ["kube_metrics_server_node_mem\x7bnode=\"n\",created=\"\",timestamp=\"\",window=\"\",debugval=\"1Ki\"\x7d 1024"])) ∧
      isExpositionLine
        "kube_metrics_server_node_cpu\x7bnode=\"n\",created=\"\",timestamp=\"\",window=\"\",debugval=\"abc\"\x7d abc" = false ∧
      isExpositionLine
        "kube_metrics_server_node_mem\x7bnode=\"n\",created=\"\",timestamp=\"\",window=\"\",debugval=\"1Ki\"\x7d 1024" = true) :=
  ⟨⟨by rfl, by rfl, by rfl⟩, ⟨by rfl, by rfl, by rfl⟩⟩

/-- C7 amended: every series line either renderer emits matches the
Prometheus text exposition grammar — metric family name, brace-enclosed
comma-separated quoted label pairs, a single space, then the value —
provided the extracted label fields are strings free of double quote,
backslash and newline characters, and the usage value normalized to an
integer (the renderers escape nothing, so a quote, backslash or newline in
upstream data, or a non-numeric pass-through value, breaks the grammar as
the counterexample shows). -/
theorem c7_amended_grammar :
    (∀ a b c d e : String, ∀ k : Nat,
      cleanStr a = true → cleanStr b = true → cleanStr c = true → cleanStr d = true →
      cleanStr e = true →
      isExpositionLine (nodeLine "cpu" (Json.str a) (Json.str b) (Json.str c) (Json.str d)
        (Json.str e) (Val.int k)) = true ∧
      isExpositionLine (nodeLine "mem" (Json.str a) (Json.str b) (Json.str c) (Json.str d)
        (Json.str e) (Val.int k)) = true) ∧
    (∀ a b c d e f g : String, ∀ k : Nat,
      cleanStr a = true → cleanStr b = true → cleanStr c = true → cleanStr d = true →
      cleanStr e = true → cleanStr f = true → cleanStr g = true →
      isExpositionLine (podLine "cpu"
        ⟨Json.str a, Json.str b, Json.str c, Json.str d, Json.str e⟩
        (Json.str f) (Json.str g) (Val.int k)) = true ∧
      isExpositionLine (podLine "mem"
        ⟨Json.str a, Json.str b, Json.str c, Json.str d, Json.str e⟩
        (Json.str f) (Json.str g) (Val.int k)) = true) :=
  ⟨fun a b c d e k ha hb hc hd he =>
      ⟨nodeLine_grammar "cpu" a b c d e k (by decide) ha hb hc hd he,
        nodeLine_grammar "mem" a b c d e k (by decide) ha hb hc hd he⟩,
    fun a b c d e f g k ha hb hc hd he hf hg =>
      ⟨podLine_grammar "cpu" a b c d e f g k (by decide) ha hb hc hd he hf hg,
        podLine_grammar "mem" a b c d e f g k (by decide) ha hb hc hd he hf hg⟩⟩

/-- C7 witness: the node conjunct applied to concrete clean labels and the
value 15000, and the pod conjunct to concrete clean labels and 1024. -/
theorem c7_amended_grammar_witness :
    (cleanStr "n1" = true ∧ cleanStr "T0" = true ∧ cleanStr "T1" = true ∧
      cleanStr "30s" = true ∧ cleanStr "250m" = true) ∧
    isExpositionLine (nodeLine "cpu" (Json.str "n1") (Json.str "T0") (Json.str "T1")
      (Json.str "30s") (Json.str "250m") (Val.int 15000)) = true ∧
    isExpositionLine (podLine "mem"
      ⟨Json.str "p1", Json.str "ns1", Json.str "T0", Json.str "T1", Json.str "30s"⟩
      (Json.str "c1") (Json.str "1Ki") (Val.int 1024)) = true :=
  ⟨⟨by decide, by decide, by decide, by decide, by decide⟩,
    (c7_amended_grammar.1 "n1" "T0" "T1" "30s" "250m" 15000
      (by decide) (by decide) (by decide) (by decide) (by decide)).1,
    (c7_amended_grammar.2 "p1" "ns1" "T0" "T1" "30s" "c1" "1Ki" 1024
      (by decide) (by decide) (by decide) (by decide) (by decide) (by decide) (by decide)).2⟩
